import Mathlib

/-!
Verification of the cross-account delivery pipeline (cicd-cfn-cdk).

The first half embeds the declared configuration from
src/lib/pipeline-stack.ts, src/lib/application-stack.ts and
src/bin/pipeline.ts: role ARNs, the KMS key and its decrypt grants, the
artifact bucket, the two build specifications, the three pipeline stages
with their actions, the orchestration-role policy statement and the
account-id fallback chain of the entry point.

The second half models, from the design specification, the runtime
components that the declaration is executed by: the stage graph
controller (a step relation with a barrier guard), the artifact store
(get with grant checking), the cross-account trust broker (fail-closed
assume), the build executor (all-or-nothing publication), the polling
source trigger (coalesced pending state) and the deploy operation
(create-or-update semantics).
-/

namespace CrossAccountPipeline

/-! ### Declared configuration, from src/lib/pipeline-stack.ts -/

inductive Principal
  | accountRoot (accountId : String)
  | roleArn (arn : String)
deriving DecidableEq

/-- An imported IAM role as produced by iam.Role.fromRoleArn: the ARN string
plus the mutability option. -/
structure RoleHandle where
  arn : String
  mutable : Bool
deriving DecidableEq

/-- The role ARN template literal used at lines 31 and 36 of
src/lib/pipeline-stack.ts. -/
def roleArnOf (accountId roleName : String) : String :=
  "arn:aws:iam::" ++ accountId ++ ":role/" ++ roleName

/-- The UatDeploymentRole import (pipeline-stack.ts lines 29 to 33). -/
def uatCloudFormationRole (uatAccountId : String) : RoleHandle :=
  { arn := roleArnOf uatAccountId "CloudFormationDeploymentRole", mutable := false }

/-- The UatCrossAccountRole import (pipeline-stack.ts lines 34 to 38). -/
def uatCodePipelineRole (uatAccountId : String) : RoleHandle :=
  { arn := roleArnOf uatAccountId "CodePipelineCrossAccountRole", mutable := false }

/-- The KMS key: alias plus the list of principals given a decrypt grant. -/
structure KmsKey where
  keyAlias : String
  decryptGrants : List Principal
deriving DecidableEq

/-- The ArtifactKey with its two grantDecrypt calls
(pipeline-stack.ts lines 50 to 54). -/
def artifactKey (uatAccountId : String) : KmsKey :=
  { keyAlias := "key/pipeline-artifact-key",
    decryptGrants :=
      [Principal.accountRoot uatAccountId,
       Principal.roleArn (uatCodePipelineRole uatAccountId).arn] }

/-- The artifact S3 bucket declaration (pipeline-stack.ts lines 57 to 64). -/
structure S3BucketDecl where
  bucketName : String
  encryptionKeyAlias : String
  putGrants : List Principal
  readGrants : List Principal
deriving DecidableEq

def artifactBucket (account uatAccountId : String) : S3BucketDecl :=
  { bucketName := "artifact-bucket-" ++ account,
    encryptionKeyAlias := "key/pipeline-artifact-key",
    putGrants := [Principal.accountRoot uatAccountId],
    readGrants := [Principal.accountRoot uatAccountId] }

/-- A CodeBuild build specification: the install and build command groups
and the artifact selection rule. -/
structure BuildSpecDecl where
  installCommands : List String
  buildCommands : List String
  baseDirectory : String
  files : List String
deriving DecidableEq

/-- The CdkBuild project buildSpec (pipeline-stack.ts lines 67 to 95). -/
def cdkBuild : BuildSpecDecl :=
  { installCommands := ["npm install"],
    buildCommands := ["npm run build", "npm run cdk synth -- -o dist"],
    baseDirectory := "dist",
    files := ["*ApplicationStack.template.json"] }

/-- The LambdaBuild project buildSpec (pipeline-stack.ts lines 100 to 127). -/
def lambdaBuild : BuildSpecDecl :=
  { installCommands := ["cd app", "npm install"],
    buildCommands := ["npm run build"],
    baseDirectory := "app",
    files := ["index.js", "node_modules/**/*"] }

inductive GitHubTrigger
  | NONE
  | POLL
  | WEBHOOK
deriving DecidableEq

/-- The GitHubSourceAction configuration: revision source identity and the
change-detection trigger mode. -/
structure GitHubSourceConfig where
  owner : String
  repo : String
  branch : String
  trigger : GitHubTrigger
deriving DecidableEq

/-- A parameter-override value: a reference to a named artifact location
component, resolved only at deploy time (a deferred token in the source). -/
inductive ParamValue
  | artifactBucketNameOf (artifactName : String)
  | artifactObjectKeyOf (artifactName : String)
deriving DecidableEq

/-- The assignment lambdaCode.assign(location) from
lambda.Code.fromCfnParameters (application-stack.ts line 20,
pipeline-stack.ts lines 186 to 189): it binds the two generated
CloudFormation parameters, bucket name and object key, to the location of
the named artifact. -/
def lambdaCodeAssign (artifactName : String) : List (String × ParamValue) :=
  [("LambdaCodeS3BucketParameter", ParamValue.artifactBucketNameOf artifactName),
   ("LambdaCodeS3KeyParameter", ParamValue.artifactObjectKeyOf artifactName)]

/-- The CloudFormationCreateUpdateStackAction configuration
(pipeline-stack.ts lines 176 to 194). -/
structure DeployActionConfig where
  templatePathArtifact : String
  templatePathFile : String
  stackName : String
  adminPermissions : Bool
  parameterOverrides : List (String × ParamValue)
  extraInputs : List String
  role : RoleHandle
  deploymentRole : RoleHandle
deriving DecidableEq

def uatDeployConfig (uatAccountId : String) : DeployActionConfig :=
  { templatePathArtifact := "CdkBuildOutput",
    templatePathFile := "UatApplicationStack.template.json",
    stackName := "UatApplicationDeploymentStack",
    adminPermissions := false,
    parameterOverrides := lambdaCodeAssign "LambdaBuildOutput",
    extraInputs := ["LambdaBuildOutput"],
    role := uatCodePipelineRole uatAccountId,
    deploymentRole := uatCloudFormationRole uatAccountId }

inductive ActionKind
  | sourcePull
  | build
  | deploy
deriving DecidableEq

/-- One declared pipeline action: its name, kind, input and output artifact
names, and the kind-specific configuration. -/
structure ActionDecl where
  actionName : String
  kind : ActionKind
  inputs : List String
  outputs : List String
  sourceConfig : Option GitHubSourceConfig
  buildSpec : Option BuildSpecDecl
  deployConfig : Option DeployActionConfig

/-- The GitHub_Source action (pipeline-stack.ts lines 145 to 153). -/
def gitHubSourceAction (owner repo branch : String) : ActionDecl :=
  { actionName := "GitHub_Source",
    kind := ActionKind.sourcePull,
    inputs := [],
    outputs := ["SourceOutput"],
    sourceConfig := Option.some
      { owner := owner, repo := repo, branch := branch,
        trigger := GitHubTrigger.POLL },
    buildSpec := Option.none,
    deployConfig := Option.none }

/-- The Application_Build action (pipeline-stack.ts lines 159 to 164). -/
def applicationBuildAction : ActionDecl :=
  { actionName := "Application_Build",
    kind := ActionKind.build,
    inputs := ["SourceOutput"],
    outputs := ["LambdaBuildOutput"],
    sourceConfig := Option.none,
    buildSpec := Option.some lambdaBuild,
    deployConfig := Option.none }

/-- The CDK_Synth action (pipeline-stack.ts lines 165 to 170). -/
def cdkSynthAction : ActionDecl :=
  { actionName := "CDK_Synth",
    kind := ActionKind.build,
    inputs := ["SourceOutput"],
    outputs := ["CdkBuildOutput"],
    sourceConfig := Option.none,
    buildSpec := Option.some cdkBuild,
    deployConfig := Option.none }

/-- The Deploy action (pipeline-stack.ts lines 176 to 194). -/
def deployUatAction (uatAccountId : String) : ActionDecl :=
  { actionName := "Deploy",
    kind := ActionKind.deploy,
    inputs := ["CdkBuildOutput"],
    outputs := [],
    sourceConfig := Option.none,
    buildSpec := Option.none,
    deployConfig := Option.some (uatDeployConfig uatAccountId) }

structure StageDecl where
  stageName : String
  actions : List ActionDecl

structure PipelineDecl where
  pipelineName : String
  artifactBucketName : String
  stages : List StageDecl

/-- The declared pipeline (pipeline-stack.ts lines 138 to 198): three stages,
Source then Build then Deploy_Uat. -/
def pipelineDecl (account uatAccountId owner repo branch : String) : PipelineDecl :=
  { pipelineName := "CrossAccountPipeline",
    artifactBucketName := (artifactBucket account uatAccountId).bucketName,
    stages :=
      [{ stageName := "Source",
         actions := [gitHubSourceAction owner repo branch] },
       { stageName := "Build",
         actions := [applicationBuildAction, cdkSynthAction] },
       { stageName := "Deploy_Uat",
         actions := [deployUatAction uatAccountId] }] }

/-- A policy statement as added by pipeline.addToRolePolicy
(pipeline-stack.ts lines 201 to 206). -/
structure PolicyStatement where
  actions : List String
  resources : List String
deriving DecidableEq

def pipelinePolicyStatement (uatAccountId : String) : PolicyStatement :=
  { actions := ["sts:AssumeRole"],
    resources := ["arn:aws:iam::" ++ uatAccountId ++ ":role/*"] }

/-! ### Entry point, from src/bin/pipeline.ts -/

/-- JavaScript truthiness for an optional string: undefined and the empty
string are falsy. -/
def jsTruthy : Option String → Bool
  | Option.none => false
  | Option.some s => decide (s ≠ "")

/-- The JavaScript logical-or on optional strings. -/
def jsOr (a b : Option String) : Option String :=
  if jsTruthy a then a else b

/-- The fallback chain at src/bin/pipeline.ts line 11:
context uat-account, then CDK_INTEG_ACCOUNT, then CDK_DEFAULT_ACCOUNT. -/
def resolveUatAccountId (ctxUatAccount envCdkIntegAccount envCdkDefaultAccount :
    Option String) : Option String :=
  jsOr (jsOr ctxUatAccount envCdkIntegAccount) envCdkDefaultAccount

/-! ### Stage graph controller, modelled from the spec -/

inductive Status
  | pending
  | running
  | succeeded
  | failed
deriving DecidableEq

/-- Execution state: one status list per stage, parallel to the declared
stage list. -/
abbrev ExecState := List (List Status)

/-- Modelled from the spec: the initial execution state of a run, every
action pending. -/
def initState (p : PipelineDecl) : ExecState :=
  p.stages.map (fun st => st.actions.map (fun _ => Status.pending))

def getAct (st : ExecState) (i j : Nat) : Option Status :=
  (st.get? i).bind (fun stg => stg.get? j)

def setAct (st : ExecState) (i j : Nat) (r : Status) : ExecState :=
  st.set i ((st.getD i []).set j r)

def allSucceeded (stg : List Status) : Bool :=
  stg.all (fun s => decide (s = Status.succeeded))

/-- The barrier guard: stage 0 may always start; stage i+1 may start only
once every action of stage i has succeeded. -/
def prevStageOk (st : ExecState) : Nat → Bool
  | 0 => true
  | Nat.succ i => allSucceeded (st.getD i [])

/-- Modelled from the spec: one scheduling step of the stage graph
controller. An action starts (pending to running) only under the barrier
guard; a running action finishes with a terminal status. The missing
runtime engine executes the declared pipeline by interleaving these steps. -/
inductive Step : ExecState → ExecState → Prop
  | start (st : ExecState) (i j : Nat)
      (hp : getAct st i j = Option.some Status.pending)
      (hprev : prevStageOk st i = true) :
      Step st (setAct st i j Status.running)
  | finish (st : ExecState) (i j : Nat) (r : Status)
      (hr : r = Status.succeeded ∨ r = Status.failed)
      (hrun : getAct st i j = Option.some Status.running) :
      Step st (setAct st i j r)

/-- States reachable in an execution of the declared pipeline. -/
inductive Reach (p : PipelineDecl) : ExecState → Prop
  | init : Reach p (initState p)
  | step (st st' : ExecState) (h : Reach p st) (hs : Step st st') : Reach p st'

/-- The stage barrier property: whenever any action of stage i+1 has begun
(is no longer pending), every action of stage i has succeeded. -/
def StageBarrier (st : ExecState) : Prop :=
  ∀ i j s, getAct st (i + 1) j = Option.some s → s ≠ Status.pending →
    allSucceeded (st.getD i []) = true

/-! #### List helper lemmas for the step relation -/

theorem list_get?_set_ne {α : Type} (l : List α) (a : α) :
    ∀ n m : Nat, n ≠ m → (l.set n a).get? m = l.get? m := by
  induction l with
  | nil => intro n m _; rfl
  | cons x xs ih =>
    intro n m h
    cases n with
    | zero =>
      cases m with
      | zero => exact absurd rfl h
      | succ m => rfl
    | succ n =>
      cases m with
      | zero => rfl
      | succ m => exact ih n m (by omega)

theorem list_get?_set_self {α : Type} (l : List α) (a : α) :
    ∀ n : Nat, n < l.length → (l.set n a).get? n = Option.some a := by
  induction l with
  | nil => intro n h; simp at h
  | cons x xs ih =>
    intro n h
    cases n with
    | zero => rfl
    | succ n => exact ih n (by simpa using h)

theorem list_length_set {α : Type} (l : List α) (a : α) :
    ∀ n : Nat, (l.set n a).length = l.length := by
  induction l with
  | nil => intro n; rfl
  | cons x xs ih =>
    intro n
    cases n with
    | zero => rfl
    | succ n => simp [ih n]

theorem list_mem_of_get? {α : Type} (l : List α) (a : α) :
    ∀ n : Nat, l.get? n = Option.some a → a ∈ l := by
  induction l with
  | nil => intro n h; cases h
  | cons x xs ih =>
    intro n h
    cases n with
    | zero =>
      simp only [List.get?] at h
      cases h
      exact List.Mem.head xs
    | succ n => exact List.mem_cons_of_mem x (ih n h)

theorem list_getD_eq {α : Type} (l : List α) (n : Nat) (d : α) :
    l.getD n d = (l.get? n).getD d := rfl

theorem allSucceeded_mem (stg : List Status) (s : Status)
    (hall : allSucceeded stg = true) (hmem : s ∈ stg) : s = Status.succeeded := by
  have := List.all_eq_true.mp hall s hmem
  simpa using this

theorem list_get?_map {α β : Type} (f : α → β) (l : List α) :
    ∀ n : Nat, (l.map f).get? n = (l.get? n).map f := by
  induction l with
  | nil => intro n; rfl
  | cons x xs ih =>
    intro n
    cases n with
    | zero => rfl
    | succ n => exact ih n

theorem list_get?_lt {α : Type} (l : List α) (a : α) :
    ∀ n : Nat, l.get? n = Option.some a → n < l.length := by
  induction l with
  | nil => intro n h; cases h
  | cons x xs ih =>
    intro n h
    cases n with
    | zero => simp
    | succ n => exact Nat.succ_lt_succ (ih n h)

theorem getAct_eq (st : ExecState) (i j : Nat) (stg : List Status)
    (h : st.get? i = Option.some stg) : getAct st i j = stg.get? j := by
  unfold getAct
  rw [h]
  rfl

theorem getAct_setAct_stage_ne (st : ExecState) (i' j' i j : Nat) (r : Status)
    (h : i ≠ i') : getAct (setAct st i' j' r) i j = getAct st i j := by
  simp only [getAct, setAct]
  rw [list_get?_set_ne st ((st.getD i' []).set j' r) i' i (by omega)]

theorem getD_setAct_stage_ne (st : ExecState) (i' j' i : Nat) (r : Status)
    (h : i ≠ i') : (setAct st i' j' r).getD i [] = st.getD i [] := by
  rw [list_getD_eq, list_getD_eq, setAct,
    list_get?_set_ne st ((st.getD i' []).set j' r) i' i (by omega)]

theorem get?_setAct_stage_self (st : ExecState) (i' j' : Nat) (r : Status)
    (stg : List Status) (h : st.get? i' = Option.some stg) :
    (setAct st i' j' r).get? i' = Option.some (stg.set j' r) := by
  have hlt : i' < st.length := list_get?_lt st stg i' h
  have hD : st.getD i' [] = stg := by rw [list_getD_eq, h]; rfl
  rw [setAct, hD]
  exact list_get?_set_self st (stg.set j' r) i' hlt

theorem getAct_setAct_act_ne (st : ExecState) (i' j' j : Nat) (r : Status)
    (stg : List Status) (h : st.get? i' = Option.some stg) (hj : j ≠ j') :
    getAct (setAct st i' j' r) i' j = getAct st i' j := by
  rw [getAct_eq _ _ _ _ (get?_setAct_stage_self st i' j' r stg h),
      getAct_eq _ _ _ stg h]
  exact list_get?_set_ne stg r j' j (by omega)

theorem stage_of_getAct (st : ExecState) (i j : Nat) (s : Status)
    (h : getAct st i j = Option.some s) :
    ∃ stg, st.get? i = Option.some stg ∧ stg.get? j = Option.some s := by
  unfold getAct at h
  cases hg : st.get? i with
  | none => rw [hg] at h; cases h
  | some stg =>
    rw [hg] at h
    exact ⟨stg, rfl, h⟩

theorem mem_stage_of_getAct (st : ExecState) (i j : Nat) (s : Status)
    (h : getAct st i j = Option.some s) : s ∈ st.getD i [] := by
  obtain ⟨stg, hg, hj⟩ := stage_of_getAct st i j s h
  have hD : st.getD i [] = stg := by rw [list_getD_eq, hg]; rfl
  rw [hD]
  exact list_mem_of_get? stg s j hj

/-! #### Preservation of the barrier invariant -/

theorem stageBarrier_init (p : PipelineDecl) : StageBarrier (initState p) := by
  intro i j s hg hsp
  exfalso
  apply hsp
  obtain ⟨stg, hstg, hj⟩ := stage_of_getAct _ _ _ _ hg
  unfold initState at hstg
  rw [list_get?_map] at hstg
  cases hps : p.stages.get? (i + 1) with
  | none => rw [hps] at hstg; cases hstg
  | some sd =>
    rw [hps] at hstg
    cases hstg
    rw [list_get?_map] at hj
    cases has : sd.actions.get? j with
    | none => rw [has] at hj; cases hj
    | some a =>
      rw [has] at hj
      cases hj
      rfl

theorem stageBarrier_step (st st' : ExecState) (hs : Step st st')
    (hinv : StageBarrier st) : StageBarrier st' := by
  cases hs with
  | start i' j' hp hprev =>
    intro i j s hg hsp
    by_cases hii : i = i'
    · subst hii
      have hg' : getAct st (i + 1) j = Option.some s := by
        rw [← hg, getAct_setAct_stage_ne st i j' (i + 1) j Status.running (by omega)]
      have hall := hinv i j s hg' hsp
      have hmem : Status.pending ∈ st.getD i [] := mem_stage_of_getAct st i j' _ hp
      cases allSucceeded_mem _ _ hall hmem
    · rw [getD_setAct_stage_ne st i' j' i Status.running hii]
      by_cases hi1 : i + 1 = i'
      · by_cases hjj : j = j'
        · subst hi1
          simpa [prevStageOk] using hprev
        · subst hi1
          obtain ⟨stg, hstg, _⟩ := stage_of_getAct st (i + 1) j' _ hp
          have hg' : getAct st (i + 1) j = Option.some s := by
            rw [← hg, getAct_setAct_act_ne st (i + 1) j' j Status.running stg hstg hjj]
          exact hinv i j s hg' hsp
      · have hg' : getAct st (i + 1) j = Option.some s := by
          rw [← hg, getAct_setAct_stage_ne st i' j' (i + 1) j Status.running (by omega)]
        exact hinv i j s hg' hsp
  | finish i' j' r hr hrun =>
    intro i j s hg hsp
    by_cases hii : i = i'
    · subst hii
      have hg' : getAct st (i + 1) j = Option.some s := by
        rw [← hg, getAct_setAct_stage_ne st i j' (i + 1) j r (by omega)]
      have hall := hinv i j s hg' hsp
      have hmem : Status.running ∈ st.getD i [] := mem_stage_of_getAct st i j' _ hrun
      cases allSucceeded_mem _ _ hall hmem
    · rw [getD_setAct_stage_ne st i' j' i r hii]
      by_cases hi1 : i + 1 = i'
      · by_cases hjj : j = j'
        · subst hjj
          subst hi1
          exact hinv i j Status.running hrun (by decide)
        · subst hi1
          obtain ⟨stg, hstg, _⟩ := stage_of_getAct st (i + 1) j' _ hrun
          have hg' : getAct st (i + 1) j = Option.some s := by
            rw [← hg, getAct_setAct_act_ne st (i + 1) j' j r stg hstg hjj]
          exact hinv i j s hg' hsp
      · have hg' : getAct st (i + 1) j = Option.some s := by
          rw [← hg, getAct_setAct_stage_ne st i' j' (i + 1) j r (by omega)]
        exact hinv i j s hg' hsp

theorem reach_stageBarrier (p : PipelineDecl) (st : ExecState)
    (h : Reach p st) : StageBarrier st := by
  induction h with
  | init => exact stageBarrier_init p
  | step st1 st2 _ hs ih => exact stageBarrier_step st1 st2 hs ih

/-! #### Shape preservation: step never changes stage or action counts -/

def stageLengths (st : ExecState) : List Nat := st.map List.length

theorem list_map_length_set {α : Type} (l : List (List α)) :
    ∀ (i : Nat) (x : List α), x.length = (l.getD i []).length →
      (l.set i x).map List.length = l.map List.length := by
  induction l with
  | nil => intro i x _; rfl
  | cons y ys ih =>
    intro i x hx
    cases i with
    | zero =>
      simp only [List.set, List.map_cons]
      rw [hx]
      rfl
    | succ i =>
      simp only [List.set, List.map_cons]
      rw [ih i x hx]

theorem stageLengths_setAct (st : ExecState) (i j : Nat) (r : Status) :
    stageLengths (setAct st i j r) = stageLengths st := by
  unfold stageLengths setAct
  exact list_map_length_set st i _ (list_length_set _ _ _)

theorem reach_stageLengths (p : PipelineDecl) (st : ExecState) (h : Reach p st) :
    stageLengths st = stageLengths (initState p) := by
  induction h with
  | init => rfl
  | step st1 st2 _ hs ih =>
    cases hs with
    | start i j hp hprev => rw [stageLengths_setAct]; exact ih
    | finish i j r hr hrun => rw [stageLengths_setAct]; exact ih

theorem list_of_length_one {α : Type} (l : List α) (h : l.length = 1) :
    ∃ a, l = [a] := by
  cases l with
  | nil => simp at h
  | cons a t =>
    cases t with
    | nil => exact ⟨a, rfl⟩
    | cons b u =>
      exfalso
      simp only [List.length_cons] at h
      omega

theorem list_of_length_two {α : Type} (l : List α) (h : l.length = 2) :
    ∃ a b, l = [a, b] := by
  cases l with
  | nil => simp at h
  | cons a t =>
    cases t with
    | nil => simp at h
    | cons b u =>
      cases u with
      | nil => exact ⟨a, b, rfl⟩
      | cons c v =>
        exfalso
        simp only [List.length_cons] at h
        omega

theorem stage_len (st : ExecState) (i : Nat) :
    (st.get? i).map List.length = (stageLengths st).get? i :=
  (list_get?_map List.length st i).symm

theorem stage_of_len (st : ExecState) (i n : Nat)
    (h : (stageLengths st).get? i = Option.some n) :
    ∃ stg, st.get? i = Option.some stg ∧ stg.length = n := by
  have hm := stage_len st i
  rw [h] at hm
  cases hg : st.get? i with
  | none => rw [hg] at hm; cases hm
  | some stg =>
    rw [hg] at hm
    refine ⟨stg, rfl, ?_⟩
    exact Option.some.inj hm

theorem stage_all_succeeded (st : ExecState) (i : Nat) (stg : List Status)
    (hstg : st.get? i = Option.some stg)
    (hall : allSucceeded (st.getD i []) = true) :
    ∀ s ∈ stg, s = Status.succeeded := by
  intro s hs
  have hD : st.getD i [] = stg := by rw [list_getD_eq, hstg]; rfl
  exact allSucceeded_mem stg s (hD ▸ hall) hs

/-! ### Claim C1 -/

/-- Claim C1: in every execution of any pipeline, no action of stage i+1
begins (is observed non-pending) before every action of stage i has reached
terminal success; for the declared pipeline this specializes to: the two
Build-stage actions begin only after the Source action has succeeded, and
the Deploy_Uat action begins only after both Build actions have
succeeded. -/
theorem stage_sequencing_barrier
    (p : PipelineDecl) (st : ExecState) (h : Reach p st)
    (account uat owner repo branch : String) (st2 : ExecState)
    (h2 : Reach (pipelineDecl account uat owner repo branch) st2) :
    StageBarrier st ∧
    (∀ j s, getAct st2 1 j = Option.some s → s ≠ Status.pending →
      getAct st2 0 0 = Option.some Status.succeeded) ∧
    (∀ s, getAct st2 2 0 = Option.some s → s ≠ Status.pending →
      getAct st2 1 0 = Option.some Status.succeeded ∧
      getAct st2 1 1 = Option.some Status.succeeded) := by
  have hbar2 := reach_stageBarrier _ _ h2
  have h121 : stageLengths st2 = [1, 2, 1] := by
    rw [reach_stageLengths _ _ h2]
    rfl
  refine ⟨reach_stageBarrier p st h, ?_, ?_⟩
  · intro j s hg hsp
    have hall := hbar2 0 j s hg hsp
    obtain ⟨stg0, hstg0, hlen0⟩ := stage_of_len st2 0 1 (by rw [h121]; rfl)
    obtain ⟨a, rfl⟩ := list_of_length_one stg0 hlen0
    have ha : a = Status.succeeded :=
      stage_all_succeeded st2 0 [a] hstg0 hall a (List.Mem.head [])
    rw [getAct_eq st2 0 0 [a] hstg0, ha]
    rfl
  · intro s hg hsp
    have hall := hbar2 1 0 s hg hsp
    obtain ⟨stg1, hstg1, hlen1⟩ := stage_of_len st2 1 2 (by rw [h121]; rfl)
    obtain ⟨a, b, rfl⟩ := list_of_length_two stg1 hlen1
    have ha : a = Status.succeeded :=
      stage_all_succeeded st2 1 [a, b] hstg1 hall a (List.Mem.head [b])
    have hb : b = Status.succeeded :=
      stage_all_succeeded st2 1 [a, b] hstg1 hall b
        (List.Mem.tail a (List.Mem.head []))
    constructor
    · rw [getAct_eq st2 1 0 [a, b] hstg1, ha]; rfl
    · rw [getAct_eq st2 1 1 [a, b] hstg1, hb]; rfl

/-- A concrete instantiation of the declared pipeline for witnesses. -/
def c1pipeline : PipelineDecl :=
  pipelineDecl "111111111111" "222222222222" "owner" "repo" "main"

/-- A concrete three-step execution of the declared pipeline: the Source
action is started and succeeds, then the first Build action starts. -/
theorem c1_reach_example :
    Reach c1pipeline
      [[Status.succeeded], [Status.running, Status.pending], [Status.pending]] := by
  have h1 : Reach c1pipeline
      [[Status.running], [Status.pending, Status.pending], [Status.pending]] :=
    Reach.step _ _ Reach.init (Step.start (initState c1pipeline) 0 0 rfl rfl)
  have h2 : Reach c1pipeline
      [[Status.succeeded], [Status.pending, Status.pending], [Status.pending]] :=
    Reach.step _ _ h1
      (Step.finish [[Status.running], [Status.pending, Status.pending], [Status.pending]]
        0 0 Status.succeeded (Or.inl rfl) rfl)
  exact Reach.step _ _ h2
    (Step.start [[Status.succeeded], [Status.pending, Status.pending], [Status.pending]]
      1 0 rfl rfl)

/-- Witness for C1: in the concrete trace the first Build action is running,
and indeed the Source action has already succeeded. -/
theorem stage_sequencing_barrier_witness :
    StageBarrier
      [[Status.succeeded], [Status.running, Status.pending], [Status.pending]] ∧
    getAct [[Status.succeeded], [Status.running, Status.pending], [Status.pending]]
      0 0 = Option.some Status.succeeded := by
  have h := stage_sequencing_barrier c1pipeline _ c1_reach_example
    "111111111111" "222222222222" "owner" "repo" "main" _ c1_reach_example
  exact ⟨h.1, h.2.1 0 Status.running rfl (by decide)⟩

/-! ### Artifact store, modelled from the spec -/

/-- An artifact store location descriptor: bucket plus object key. -/
structure S3Location where
  bucketName : String
  objectKey : String
deriving DecidableEq

/-- An artifact reference: store-relative key plus the owning encryption
key alias. -/
structure ArtifactRef where
  key : String
  encKeyAlias : String
deriving DecidableEq

structure StoredObject where
  key : String
  bytes : List Nat
  committed : Bool
deriving DecidableEq

inductive GetResult
  | ok (bytes : List Nat)
  | accessDenied
  | notFound
deriving DecidableEq

def hasDecryptGrant (k : KmsKey) (p : Principal) : Bool :=
  k.decryptGrants.any (fun q => decide (q = p))

def lookupCommitted (store : List StoredObject) (key : String) :
    Option (List Nat) :=
  match store.find? (fun o => decide (o.key = key) && o.committed) with
  | Option.some o => Option.some o.bytes
  | Option.none => Option.none

/-- Modelled from the spec: the Artifact Store read operation (the store
runtime is not part of the repository sources). The calling principal must
hold a decrypt grant on the artifact key, else AccessDenied; with a grant,
a missing or uncommitted object yields NotFound. -/
def get (store : List StoredObject) (k : KmsKey) (ref : ArtifactRef)
    (p : Principal) : GetResult :=
  if hasDecryptGrant k p then
    match lookupCommitted store ref.key with
    | Option.some bs => GetResult.ok bs
    | Option.none => GetResult.notFound
  else GetResult.accessDenied

/-- Modelled from the spec: the Artifact Store write, write-then-publish:
the object becomes visible already committed. -/
def put (store : List StoredObject) (key : String) (bytes : List Nat) :
    List StoredObject :=
  { key := key, bytes := bytes, committed := true } :: store

/-- Modelled from the spec: locationOf, callable without materializing the
payload: a pure function of the bucket and the artifact key, independent of
store contents. -/
def locationOf (bucketName : String) (ref : ArtifactRef) : S3Location :=
  { bucketName := bucketName, objectKey := ref.key }

/-- Resolution of a parameter-override value against a location map, done
lazily at deploy time. -/
def resolveParamValue (locOf : String → S3Location) : ParamValue → String
  | ParamValue.artifactBucketNameOf a => (locOf a).bucketName
  | ParamValue.artifactObjectKeyOf a => (locOf a).objectKey

/-! ### Claim C2 -/

/-- Claim C2: get returns AccessDenied unless the calling principal holds a
decrypt grant on the artifact key; with a grant it returns NotFound when
the object is absent or not yet committed; and in the declared
configuration exactly the UAT account root and the UAT
CodePipelineCrossAccountRole hold decrypt on the artifact key. -/
theorem artifact_get_access_control
    (store : List StoredObject) (k : KmsKey) (ref : ArtifactRef)
    (p : Principal) (uat : String) :
    (hasDecryptGrant k p = false → get store k ref p = GetResult.accessDenied) ∧
    (hasDecryptGrant k p = true → lookupCommitted store ref.key = Option.none →
      get store k ref p = GetResult.notFound) ∧
    (artifactKey uat).decryptGrants =
      [Principal.accountRoot uat,
       Principal.roleArn (roleArnOf uat "CodePipelineCrossAccountRole")] := by
  refine ⟨?_, ?_, rfl⟩
  · intro hfalse
    simp [get, hfalse]
  · intro htrue hnone
    simp [get, htrue, hnone]

/-- Witness for C2: on an empty store, a principal outside the grant list is
denied, while a granted principal gets NotFound. -/
theorem artifact_get_access_control_witness :
    get [] (artifactKey "222222222222")
      { key := "obj", encKeyAlias := "key/pipeline-artifact-key" }
      (Principal.accountRoot "999999999999") = GetResult.accessDenied ∧
    get [] (artifactKey "222222222222")
      { key := "obj", encKeyAlias := "key/pipeline-artifact-key" }
      (Principal.accountRoot "222222222222") = GetResult.notFound := by
  have hd := artifact_get_access_control [] (artifactKey "222222222222")
    { key := "obj", encKeyAlias := "key/pipeline-artifact-key" }
    (Principal.accountRoot "999999999999") "222222222222"
  have hg := artifact_get_access_control [] (artifactKey "222222222222")
    { key := "obj", encKeyAlias := "key/pipeline-artifact-key" }
    (Principal.accountRoot "222222222222") "222222222222"
  exact ⟨hd.1 (by decide), hg.2.1 (by decide) rfl⟩

/-! ### Claim C3 -/

/-- Claim C3: a parameter-override location computed by locationOf before
the artifact bytes are written resolves, once the artifact is written, to a
location from which a get by an authorized principal succeeds; locationOf
is a pure function of the reference, and the declared deploy action assigns
the lambda build output location into its parameter overrides at
configuration time. -/
theorem param_override_location_roundtrip
    (bucket : String) (ref : ArtifactRef) (bytes : List Nat)
    (store : List StoredObject) (k : KmsKey) (p : Principal) (uat : String) :
    (hasDecryptGrant k p = true →
      get (put store ref.key bytes) k
        { key := (locationOf bucket ref).objectKey,
          encKeyAlias := ref.encKeyAlias } p = GetResult.ok bytes) ∧
    locationOf bucket ref = { bucketName := bucket, objectKey := ref.key } ∧
    (uatDeployConfig uat).parameterOverrides =
      lambdaCodeAssign "LambdaBuildOutput" := by
  refine ⟨?_, rfl, rfl⟩
  intro htrue
  simp [get, htrue, locationOf, put, lookupCommitted]

/-- Witness for C3: a concrete artifact written after its location was
computed is readable at that location by the granted account root. -/
theorem param_override_location_roundtrip_witness :
    get (put [] "LambdaBuildOutput/code.zip" [1, 2, 3])
      (artifactKey "222222222222")
      { key := (locationOf "artifact-bucket-111111111111"
          { key := "LambdaBuildOutput/code.zip",
            encKeyAlias := "key/pipeline-artifact-key" }).objectKey,
        encKeyAlias := "key/pipeline-artifact-key" }
      (Principal.accountRoot "222222222222") = GetResult.ok [1, 2, 3] := by
  have h := param_override_location_roundtrip "artifact-bucket-111111111111"
    { key := "LambdaBuildOutput/code.zip", encKeyAlias := "key/pipeline-artifact-key" }
    [1, 2, 3] [] (artifactKey "222222222222")
    (Principal.accountRoot "222222222222") "222222222222"
  exact h.1 (by decide)

/-! ### Cross-account trust broker, modelled from the spec -/

/-- A role handle together with its statically configured trusted operation
set. -/
structure TrustedRole where
  handle : RoleHandle
  trustedOps : List String
deriving DecidableEq

inductive AssumeOutcome
  | session (ops : List String)
  | trustDenied
deriving DecidableEq

/-- The result of an assume call plus whether the foreign account was
contacted in its course. -/
structure AssumeTrace where
  outcome : AssumeOutcome
  contactedForeignAccount : Bool
deriving DecidableEq

/-- Modelled from the spec: the Trust Broker assume operation (the broker
runtime is not part of the repository sources). It fails closed: the
requested operations are checked against the statically configured trusted
set before any contact with the foreign account. -/
def assume (r : TrustedRole) (requested : List String) : AssumeTrace :=
  if requested.all (fun op => decide (op ∈ r.trustedOps)) then
    { outcome := AssumeOutcome.session requested,
      contactedForeignAccount := true }
  else
    { outcome := AssumeOutcome.trustDenied,
      contactedForeignAccount := false }

/-! ### Claim C4 -/

/-- Claim C4: whenever the requested operations are not a subset of the
statically configured trusted set, assume returns TrustDenied without
contacting the foreign account; and every session assume ever hands out
certifies that the subset check passed, so no trusted session arises
outside this fail-closed check. -/
theorem assume_fails_closed (r : TrustedRole) (requested : List String) :
    (¬ (∀ op ∈ requested, op ∈ r.trustedOps) →
      assume r requested =
        { outcome := AssumeOutcome.trustDenied,
          contactedForeignAccount := false }) ∧
    (∀ ops, (assume r requested).outcome = AssumeOutcome.session ops →
      ops = requested ∧ ∀ op ∈ requested, op ∈ r.trustedOps) := by
  constructor
  · intro hnot
    have hb : requested.all (fun op => decide (op ∈ r.trustedOps)) = false := by
      cases hall : requested.all (fun op => decide (op ∈ r.trustedOps)) with
      | true =>
        exfalso
        apply hnot
        intro op hop
        exact of_decide_eq_true (List.all_eq_true.mp hall op hop)
      | false => rfl
    simp [assume, hb]
  · intro ops hses
    cases hall : requested.all (fun op => decide (op ∈ r.trustedOps)) with
    | true =>
      have hsub : ∀ op ∈ requested, op ∈ r.trustedOps := fun op hop =>
        of_decide_eq_true (List.all_eq_true.mp hall op hop)
      simp only [assume, hall, if_true] at hses
      exact ⟨(AssumeOutcome.session.inj hses).symm, hsub⟩
    | false =>
      exfalso
      simp only [assume, hall] at hses
      cases hses

/-- Witness for C4: requesting an operation outside the trusted set of the
UAT CloudFormation deployment role is denied without foreign contact. -/
theorem assume_fails_closed_witness :
    assume
      { handle := uatCloudFormationRole "222222222222",
        trustedOps := ["assume-for-deploy"] }
      ["assume-for-pipeline"] =
      { outcome := AssumeOutcome.trustDenied,
        contactedForeignAccount := false } ∧
    (assume
      { handle := uatCloudFormationRole "222222222222",
        trustedOps := ["assume-for-deploy"] }
      ["assume-for-deploy"]).outcome =
      AssumeOutcome.session ["assume-for-deploy"] := by
  have h := assume_fails_closed
    { handle := uatCloudFormationRole "222222222222",
      trustedOps := ["assume-for-deploy"] }
    ["assume-for-pipeline"]
  refine ⟨h.1 ?_, by decide⟩
  intro hsub
  have := hsub "assume-for-pipeline" (List.Mem.head [])
  simp at this

/-! ### Build executor, modelled from the spec -/

inductive BuildResult
  | ok (outputs : List String)
  | buildFailed
deriving DecidableEq

/-- Modelled from the spec: sequential execution of shell command groups;
the first failing command aborts the run. -/
def runCommands (runner : String → Bool) : List String → Bool
  | [] => true
  | c :: cs => if runner c then runCommands runner cs else false

/-- Modelled from the spec: the Build Executor (the CodeBuild runtime is
not part of the repository sources). It runs the install group then the
build group; on any failure the action ends BuildFailed with no outputs,
otherwise it yields the declared output artifact set. -/
def execute (bs : BuildSpecDecl) (runner : String → Bool)
    (declaredOutputs : List String) : BuildResult :=
  if runCommands runner (bs.installCommands ++ bs.buildCommands) then
    BuildResult.ok declaredOutputs
  else BuildResult.buildFailed

/-- Modelled from the spec: all-or-nothing publication of the build result
into the store key set: a failed build publishes nothing. -/
def publish (storeKeys : List String) : BuildResult → List String
  | BuildResult.ok outs => outs ++ storeKeys
  | BuildResult.buildFailed => storeKeys

/-- Modelled from the spec: a build action is executed exactly once, with
no automatic retry (the attempt count is the second component). -/
def runBuildAction (bs : BuildSpecDecl) (runner : String → Bool)
    (declaredOutputs : List String) : BuildResult × Nat :=
  (execute bs runner declaredOutputs, 1)

theorem runCommands_false (runner : String → Bool) :
    ∀ cs : List String, (∃ c ∈ cs, runner c = false) →
      runCommands runner cs = false := by
  intro cs
  induction cs with
  | nil =>
    intro h
    obtain ⟨c, hc, _⟩ := h
    cases hc
  | cons c cs ih =>
    intro h
    obtain ⟨d, hd, hdf⟩ := h
    cases hrc : runner c with
    | false => simp [runCommands, hrc]
    | true =>
      cases hd with
      | head => rw [hrc] at hdf; cases hdf
      | tail _ hmem =>
        simp only [runCommands, hrc, if_true]
        exact ih ⟨d, hmem, hdf⟩

/-! ### Claim C5 -/

/-- Claim C5: if any install or build command of a build action fails, the
action terminates BuildFailed after its single attempt (no retry) and
publication is all-or-nothing: the store is unchanged, so none of the
declared output artifacts appear in it. -/
theorem build_failure_all_or_nothing
    (bs : BuildSpecDecl) (runner : String → Bool)
    (declaredOutputs storeKeys : List String)
    (h : ∃ c ∈ bs.installCommands ++ bs.buildCommands, runner c = false) :
    execute bs runner declaredOutputs = BuildResult.buildFailed ∧
    (runBuildAction bs runner declaredOutputs).2 = 1 ∧
    publish storeKeys (execute bs runner declaredOutputs) = storeKeys := by
  have hrc := runCommands_false runner _ h
  refine ⟨?_, rfl, ?_⟩ <;> simp [execute, publish, hrc]

/-- Witness for C5: the lambda build with a runner that fails npm run build
ends BuildFailed and leaves the store untouched. -/
theorem build_failure_all_or_nothing_witness :
    execute lambdaBuild (fun c => decide (c ≠ "npm run build"))
      ["LambdaBuildOutput"] = BuildResult.buildFailed ∧
    publish ["SourceOutput"]
      (execute lambdaBuild (fun c => decide (c ≠ "npm run build"))
        ["LambdaBuildOutput"]) = ["SourceOutput"] := by
  have h := build_failure_all_or_nothing lambdaBuild
    (fun c => decide (c ≠ "npm run build")) ["LambdaBuildOutput"]
    ["SourceOutput"]
    ⟨"npm run build", by decide, by decide⟩
  exact ⟨h.1, h.2.2⟩

/-! ### Deploy operation, modelled from the spec -/

/-- Modelled from the spec: change submission with create-or-update
semantics over a named stack map (the CloudFormation runtime is not part of
the repository sources): an existing target stack is replaced in place, a
missing one is created. -/
def createOrUpdateStack (stackList : List (String × String)) (name tpl : String) :
    List (String × String) :=
  if stackList.any (fun s => decide (s.1 = name)) then
    stackList.map (fun s => if s.1 = name then (name, tpl) else s)
  else
    (name, tpl) :: stackList

/-! ### Claim C6 -/

/-- Claim C6: the deploy submits with create-or-update semantics: an
existing target stack is updated in place (same stack count, the new
template under the target name, every other stack untouched) while a
missing target is created; and the declared Deploy action targets
UatApplicationDeploymentStack using the UAT cross-account role as action
role and the UAT CloudFormation role as deployment role. -/
theorem deploy_create_or_update
    (stackList : List (String × String)) (name tpl uat : String) :
    (stackList.any (fun s => decide (s.1 = name)) = true →
      (createOrUpdateStack stackList name tpl).length = stackList.length ∧
      (name, tpl) ∈ createOrUpdateStack stackList name tpl ∧
      ∀ s ∈ stackList, s.1 ≠ name → s ∈ createOrUpdateStack stackList name tpl) ∧
    (stackList.any (fun s => decide (s.1 = name)) = false →
      createOrUpdateStack stackList name tpl = (name, tpl) :: stackList) ∧
    (uatDeployConfig uat).stackName = "UatApplicationDeploymentStack" ∧
    (uatDeployConfig uat).role = uatCodePipelineRole uat ∧
    (uatDeployConfig uat).deploymentRole = uatCloudFormationRole uat := by
  refine ⟨?_, ?_, rfl, rfl, rfl⟩
  · intro hany
    unfold createOrUpdateStack
    rw [if_pos hany]
    refine ⟨List.length_map stackList _, ?_, ?_⟩
    · obtain ⟨s, hs, hsn⟩ := List.any_eq_true.mp hany
      refine List.mem_map.mpr ⟨s, hs, ?_⟩
      simp [of_decide_eq_true hsn]
    · intro s hs hneq
      refine List.mem_map.mpr ⟨s, hs, ?_⟩
      simp [hneq]
  · intro hnone
    unfold createOrUpdateStack
    rw [if_neg ?_]
    rw [hnone]
    exact Bool.false_ne_true

/-- Witness for C6: updating an existing UatApplicationDeploymentStack
keeps the stack count, while deploying to an empty account creates it. -/
theorem deploy_create_or_update_witness :
    (createOrUpdateStack [("UatApplicationDeploymentStack", "v1")]
      "UatApplicationDeploymentStack" "v2").length = 1 ∧
    ("UatApplicationDeploymentStack", "v2") ∈
      createOrUpdateStack [("UatApplicationDeploymentStack", "v1")]
        "UatApplicationDeploymentStack" "v2" ∧
    createOrUpdateStack [] "UatApplicationDeploymentStack" "v1" =
      [("UatApplicationDeploymentStack", "v1")] := by
  have hu := deploy_create_or_update [("UatApplicationDeploymentStack", "v1")]
    "UatApplicationDeploymentStack" "v2" "222222222222"
  have hc := deploy_create_or_update [] "UatApplicationDeploymentStack" "v1"
    "222222222222"
  obtain ⟨hl, hm, _⟩ := hu.1 (by decide)
  exact ⟨hl, hm, hc.2.1 (by decide)⟩

/-! ### Source trigger, modelled from the spec -/

inductive TriggerEvent
  | changeDetected
  | executionFinished
deriving DecidableEq

/-- Trigger loop state: the number of pipeline executions in flight and the
number of queued pending triggers. -/
structure TriggerState where
  inFlight : Nat
  pendingTriggers : Nat
deriving DecidableEq

/-- Modelled from the spec: the polling source trigger loop (the CodePipeline
polling runtime is not part of the repository sources). A detected change
starts an execution when idle and otherwise coalesces into a single pending
trigger; a finishing execution consumes the pending trigger if one is
queued. -/
def triggerStep (s : TriggerState) : TriggerEvent → TriggerState
  | TriggerEvent.changeDetected =>
    if s.inFlight = 0 then { inFlight := 1, pendingTriggers := s.pendingTriggers }
    else { inFlight := s.inFlight, pendingTriggers := 1 }
  | TriggerEvent.executionFinished =>
    if s.pendingTriggers = 0 then { inFlight := 0, pendingTriggers := 0 }
    else { inFlight := 1, pendingTriggers := 0 }

def runTrigger (events : List TriggerEvent) : TriggerState :=
  events.foldl triggerStep { inFlight := 0, pendingTriggers := 0 }

theorem triggerStep_inv (s : TriggerState) (e : TriggerEvent)
    (h1 : s.inFlight ≤ 1) (h2 : s.pendingTriggers ≤ 1) :
    (triggerStep s e).inFlight ≤ 1 ∧ (triggerStep s e).pendingTriggers ≤ 1 := by
  cases e with
  | changeDetected =>
    by_cases h0 : s.inFlight = 0 <;> simp [triggerStep, h0] <;> omega
  | executionFinished =>
    by_cases h0 : s.pendingTriggers = 0 <;> simp [triggerStep, h0]

theorem runTrigger_fold_inv (events : List TriggerEvent) :
    ∀ s : TriggerState, s.inFlight ≤ 1 → s.pendingTriggers ≤ 1 →
      (events.foldl triggerStep s).inFlight ≤ 1 ∧
      (events.foldl triggerStep s).pendingTriggers ≤ 1 := by
  induction events with
  | nil => intro s h1 h2; exact ⟨h1, h2⟩
  | cons e es ih =>
    intro s h1 h2
    obtain ⟨h1', h2'⟩ := triggerStep_inv s e h1 h2
    exact ih (triggerStep s e) h1' h2'

/-! ### Claim C8 -/

/-- Claim C8: the declared source action uses the polling trigger, and in
the trigger loop at most one pipeline execution is in flight and at most
one pending trigger is queued after any sequence of change-detection and
completion events. -/
theorem source_trigger_coalesced (events : List TriggerEvent)
    (owner repo branch : String) :
    (runTrigger events).inFlight ≤ 1 ∧
    (runTrigger events).pendingTriggers ≤ 1 ∧
    ((gitHubSourceAction owner repo branch).sourceConfig.map
      GitHubSourceConfig.trigger) = Option.some GitHubTrigger.POLL := by
  obtain ⟨h1, h2⟩ := runTrigger_fold_inv events
    { inFlight := 0, pendingTriggers := 0 } (by decide) (by decide)
  exact ⟨h1, h2, rfl⟩

/-! ### Claim C7 -/

/-- Claim C7: role resolution is pure string construction of
arn:aws:iam::account:role/name, performed once at configuration time; the
resulting handles are created immutable and are the very values reused in
the deploy action configuration. -/
theorem role_resolution_pure (uat roleName : String) :
    roleArnOf uat roleName = "arn:aws:iam::" ++ uat ++ ":role/" ++ roleName ∧
    uatCloudFormationRole uat =
      { arn := roleArnOf uat "CloudFormationDeploymentRole", mutable := false } ∧
    uatCodePipelineRole uat =
      { arn := roleArnOf uat "CodePipelineCrossAccountRole", mutable := false } ∧
    (uatDeployConfig uat).role = uatCodePipelineRole uat ∧
    (uatDeployConfig uat).deploymentRole = uatCloudFormationRole uat ∧
    Principal.roleArn (uatCodePipelineRole uat).arn ∈
      (artifactKey uat).decryptGrants :=
  ⟨rfl, rfl, rfl, rfl, rfl,
    List.Mem.tail _ (List.Mem.head [])⟩

/-! ### Claim C9 -/

/-- The fixed prefix of every role ARN in the given account. -/
def roleWildcardStem (uatAccountId : String) : String :=
  "arn:aws:iam::" ++ uatAccountId ++ ":role/"

/-- A resource pattern with a trailing star matches an ARN when the ARN
extends the stem. -/
def wildcardMatches (pattern arn : String) : Prop :=
  ∃ stem suffix, pattern = stem ++ "*" ∧ arn = stem ++ suffix

/-- Claim C9: the policy added to the pipeline orchestration role allows
sts:AssumeRole on the wildcard resource role/* of the UAT account, which
matches the ARN of every role name in that account, not only the two
resolved handles. -/
theorem pipeline_policy_wildcard (uat roleName : String) :
    (pipelinePolicyStatement uat).actions = ["sts:AssumeRole"] ∧
    (pipelinePolicyStatement uat).resources =
      ["arn:aws:iam::" ++ uat ++ ":role/*"] ∧
    (∃ res ∈ (pipelinePolicyStatement uat).resources,
      wildcardMatches res (roleArnOf uat roleName)) := by
  refine ⟨rfl, rfl, "arn:aws:iam::" ++ uat ++ ":role/*", List.Mem.head [], ?_⟩
  refine ⟨roleWildcardStem uat, roleName, ?_, rfl⟩
  have hlit : (":role/" : String) ++ "*" = ":role/*" := by decide
  calc "arn:aws:iam::" ++ uat ++ ":role/*"
      = "arn:aws:iam::" ++ uat ++ (":role/" ++ "*") := by rw [hlit]
    _ = ("arn:aws:iam::" ++ uat ++ ":role/") ++ "*" :=
        (String.append_assoc ("arn:aws:iam::" ++ uat) ":role/" "*").symm

/-! ### Claim C10 -/

/-- Claim C10: with the uat-account context value absent, the account id
falls back first to CDK_INTEG_ACCOUNT and then to CDK_DEFAULT_ACCOUNT, so
with no configuration at all the cross-account role handles, key grants and
bucket grants all resolve to principals of the deploying account itself. -/
theorem account_fallback_chain (integ dflt : Option String) (own : String) :
    resolveUatAccountId Option.none integ dflt = jsOr integ dflt ∧
    (jsTruthy integ = true →
      resolveUatAccountId Option.none integ dflt = integ) ∧
    (jsTruthy integ = false →
      resolveUatAccountId Option.none integ dflt = dflt) ∧
    (own ≠ "" →
      resolveUatAccountId Option.none Option.none (Option.some own) =
        Option.some own) ∧
    (artifactKey own).decryptGrants =
      [Principal.accountRoot own,
       Principal.roleArn (roleArnOf own "CodePipelineCrossAccountRole")] ∧
    (artifactBucket own own).readGrants = [Principal.accountRoot own] ∧
    (artifactBucket own own).putGrants = [Principal.accountRoot own] ∧
    (uatCloudFormationRole own).arn =
      roleArnOf own "CloudFormationDeploymentRole" := by
  refine ⟨rfl, ?_, ?_, ?_, rfl, rfl, rfl, rfl⟩
  · intro ht
    show jsOr integ dflt = integ
    simp [jsOr, ht]
  · intro hf
    show jsOr integ dflt = dflt
    simp [jsOr, hf]
  · intro hne
    rfl

/-- Witness for C10: with the context absent, a set CDK_INTEG_ACCOUNT wins,
and with both unset the deploying account itself is used. -/
theorem account_fallback_chain_witness :
    resolveUatAccountId Option.none (Option.some "333333333333")
      (Option.some "444444444444") = Option.some "333333333333" ∧
    resolveUatAccountId Option.none Option.none
      (Option.some "444444444444") = Option.some "444444444444" := by
  have h := account_fallback_chain (Option.some "333333333333")
    (Option.some "444444444444") "444444444444"
  exact ⟨h.2.1 (by decide), h.2.2.2.1 (by decide)⟩

end CrossAccountPipeline
